import Mathlib

/-!
Verification of the menu-checker pipeline (`menu_checker.py`).

The Python source is shallowly embedded: strings are modelled as `List Char`
(`Str`), pure string helpers (`normalize`, `format_dish`, …) become Lean
functions, the nested provider menu response becomes a structure tree, and the
two outbound HTTP calls of `check_menu` are abstracted as `Except`-valued
parameters (success payload or an HTTP error), so that `check_menu` itself is a
pure function of those outcomes.
-/

set_option autoImplicit false

namespace MenuChecker

/-- Python strings are modelled as lists of characters. -/
abbrev Str := List Char

/-- Python `str.lower()` (character-wise lower-casing). -/
def lowerStr (s : Str) : Str := s.map Char.toLower

/-- Whitespace test used by Python `split` / `strip`. -/
def isWs (c : Char) : Bool := c.isWhitespace

/-- Python `str.strip()`: drop leading and trailing whitespace. -/
def stripWs (s : Str) : Str :=
  ((s.dropWhile isWs).reverse.dropWhile isWs).reverse

/-- Python `str.rstrip(c)` for a single character `c`. -/
def rstripChar (c : Char) (s : Str) : Str :=
  (s.reverse.dropWhile (fun x => x == c)).reverse

/-- Python substring containment `needle in haystack` (contiguous substring;
the empty needle is contained in every string). -/
def hasSub (needle : Str) : Str → Bool
  | [] => needle.isEmpty
  | c :: rest => needle.isPrefixOf (c :: rest) || hasSub needle rest

/-- Python `str.split()` with no argument: split on runs of whitespace,
dropping empty pieces. -/
def words (s : Str) : List Str :=
  (s.splitOnP isWs).filter (fun w => !w.isEmpty)

/-- Python `' '.join(pieces)`. -/
def joinSpace (ws : List Str) : Str := List.intercalate [' '] ws

/-- Python `str.replace('.', ';')`. -/
def replaceDots (s : Str) : Str :=
  s.map (fun c => if c == '.' then ';' else c)

/-- `normalize(text)` from the source: `text.lower().strip()`. -/
def normalize (text : Str) : Str := stripWs (lowerStr text)

/-- `format_dish(info)` from the source:
`' '.join(info.split()).replace('.', ';').rstrip(';')`. -/
def format_dish (info : Str) : Str :=
  rstripChar ';' (replaceDots (joinSpace (words info)))

/-- `Restaurant` from the source: id, display name, joined address lines. -/
structure Restaurant where
  id : Str
  name : Str
  address : Str
deriving DecidableEq

/-- `Dish` from the source: name, description (`info`), classification note
(default `'none'`). -/
structure Dish where
  name : Str
  info : Str
  note : Str
deriving DecidableEq

/-- `Dish.__str__`: `name: info` when the description is nonempty, else just
the name. -/
def dishStr (d : Dish) : Str :=
  if d.info ≠ [] then d.name ++ (": ".toList) ++ d.info else d.name

/-- `Menu` from the source: a restaurant tag and an ordered dish list. -/
structure Menu where
  restaurant : Str
  dishes : List Dish
deriving DecidableEq

/-- `Menu.add_dish`: append a dish. -/
def add_dish (m : Menu) (d : Dish) : Menu :=
  ⟨m.restaurant, m.dishes ++ [d]⟩

/-- `Menu.__str__`: header `*restaurant*` then one `- <dish>` line per dish. -/
def menuStr (m : Menu) : Str :=
  m.dishes.foldl (fun result dish => result ++ ("- ".toList) ++ dishStr dish ++ ['\n'])
    (['*'] ++ m.restaurant ++ ['*', '\n'])

/-- `Menu.simplified_menu`: `restaurant: name1; name2; …`. -/
def simplified_menu (m : Menu) : Str :=
  m.restaurant ++ (": ".toList) ++ List.intercalate ("; ".toList) (m.dishes.map Dish.name)

/-! ### The nested provider menu response -/

/-- One entry (`dish`) of a section: a name and an optional description. -/
structure Entry where
  name : Str
  description : Option Str
deriving DecidableEq

/-- One section of a menu: name, entry count field, entry list. -/
structure MenuSection where
  name : Str
  count : Int
  entries : List Entry
deriving DecidableEq

/-- One menu of the response: its `entries.count` field and its sections. -/
structure SubMenu where
  count : Int
  sections : List MenuSection
deriving DecidableEq

/-- The whole `response.menu.menus` payload: the `count` field and the menus. -/
structure MenuResponse where
  count : Int
  menus : List SubMenu
deriving DecidableEq

/-- `is_positive(number)` from the source. -/
def is_positive (n : Int) : Bool := 0 < n

/-- The processed description stored by the flattener:
`info.lower().strip().rstrip('.')` with `info = ''` when absent. -/
def entryInfo (e : Entry) : Str :=
  rstripChar '.' (stripWs (lowerStr (e.description.getD [])))

/-- Section-exclusion test of the flattener: `'Drinks' in section['name'] or
'Beverages' in section['name']`. -/
def excludedSection (s : MenuSection) : Bool :=
  hasSub ("Drinks".toList) s.name || hasSub ("Beverages".toList) s.name

/-- Innermost loop body of `get_menu_items`: add the dish unless its raw name
was already seen (the `dish_set` dedup, modelled as a list with membership). -/
def flattenStep (st : Menu × List Str) (e : Entry) : Menu × List Str :=
  if e.name ∈ st.2 then st
  else (add_dish st.1 ⟨e.name, entryInfo e, "none".toList⟩, e.name :: st.2)

/-- `get_menu_items` with the HTTP call factored out: flatten the fetched
`MenuResponse` into a `Menu` tagged with the restaurant's name, skipping
non-positive counts and Drinks/Beverages sections, deduplicating by raw dish
name across the whole pass. -/
def get_menu_items (restaurant : Restaurant) (result : MenuResponse) : Menu :=
  let init : Menu × List Str := (⟨restaurant.name, []⟩, [])
  let final :=
    if is_positive result.count then
      result.menus.foldl (fun st menu =>
        if is_positive menu.count then
          menu.sections.foldl (fun st sec =>
            if excludedSection sec then st
            else if is_positive sec.count then
              sec.entries.foldl flattenStep st
            else st) st
        else st) init
    else init
  final.1

/-! ### The safety classifier -/

/-- `filter_menu_items` from the source: per dish, keep with note
`'has safe word'` on any safe-word substring hit in the normalized name or
description; otherwise drop on any danger-word hit; otherwise keep with note
`'has no danger words'`. Kept descriptions pass through `format_dish`. -/
def filter_menu_items (original_menu : Menu) (safe_words danger_words : List Str) : Menu :=
  original_menu.dishes.foldl (fun filtered_menu dish =>
    if safe_words.any (fun word => hasSub word (normalize dish.name))
        || safe_words.any (fun word => hasSub word (normalize dish.info)) then
      add_dish filtered_menu
        ⟨dish.name, format_dish (normalize dish.info), "has safe word".toList⟩
    else if danger_words.any (fun word =>
        hasSub word (normalize dish.name) || hasSub word (normalize dish.info)) then
      filtered_menu
    else
      add_dish filtered_menu
        ⟨dish.name, format_dish (normalize dish.info), "has no danger words".toList⟩)
    ⟨original_menu.restaurant, []⟩

/-- The classification of one dish, as an `Option` (`none` = dropped).
`filter_menu_items` is proved equal to `filterMap` of this function. -/
def classify_dish (safe_words danger_words : List Str) (dish : Dish) : Option Dish :=
  if safe_words.any (fun word => hasSub word (normalize dish.name))
      || safe_words.any (fun word => hasSub word (normalize dish.info)) then
    some ⟨dish.name, format_dish (normalize dish.info), "has safe word".toList⟩
  else if danger_words.any (fun word =>
      hasSub word (normalize dish.name) || hasSub word (normalize dish.info)) then
    none
  else
    some ⟨dish.name, format_dish (normalize dish.info), "has no danger words".toList⟩

/-! ### The orchestrator -/

/-- `TWILIO_MAXIMUM_MESSAGE_SIZE` from the source. -/
def TWILIO_MAXIMUM_MESSAGE_SIZE : Nat := 1600

/-- `is_too_large(message)`. -/
def is_too_large (message : Str) : Bool :=
  TWILIO_MAXIMUM_MESSAGE_SIZE < message.length

/-- `fetch_menu_url(restaurant_name)`. -/
def fetch_menu_url (restaurant_name : Str) : Str :=
  ("places.singleplatform.com/".toList)
    ++ List.intercalate ['-'] (words (lowerStr restaurant_name))
    ++ ("/menu".toList)

/-- Terminal message for an HTTP failure during venue search. -/
def searchFailMsg : Str :=
  "We could not find the restaurant you are looking for. Please try again later.".toList

/-- Terminal message for zero venues found. -/
def noResultsMsg : Str :=
  "No Results Found: We could not find any restaurants with the text you sent. Please try again.".toList

/-- Terminal message for an HTTP failure during menu fetch. -/
def menuFetchFailMsg (r : Restaurant) : Str :=
  ("Unfortunately, we could not create a filtered menu for ".toList) ++ r.name
    ++ (". Try checking the online menu for more information. ".toList)
    ++ fetch_menu_url r.name

/-- Terminal message for a menu that flattens to zero dishes. -/
def noMenuMsg (r : Restaurant) : Str :=
  ("Unfortunately, ".toList) ++ r.name
    ++ (" does not have a menu. Visit the restaurant for a full menu!\n".toList)
    ++ r.address

/-- `check_menu` with its two HTTP calls abstracted: `search_result` is the
outcome of the venue search (already mapped to `Restaurant`s by
`get_restaurants`), `fetch_result` the outcome of the menu fetch for the first
restaurant, and `danger_lines` the raw lines of `meat_words.txt` (each line is
`strip`ped on load, as in the source). -/
def check_menu (search_result : Except Unit (List Restaurant))
    (fetch_result : Except Unit MenuResponse) (danger_lines : List Str) : Str :=
  match search_result with
  | .error _ => searchFailMsg
  | .ok restaurants =>
    match restaurants with
    | [] => noResultsMsg
    | first :: _ =>
      match fetch_result with
      | .error _ => menuFetchFailMsg first
      | .ok response =>
        let menu := get_menu_items first response
        if menu.dishes.length = 0 then noMenuMsg first
        else
          let vegetarian_words : List Str := ["vegan".toList, "vegetarian".toList]
          let meat_words := danger_lines.map stripWs
          let result := filter_menu_items menu vegetarian_words meat_words
          if is_too_large (menuStr result) then simplified_menu result
          else menuStr result

/-! ### Specification view of the flattener

The nested loops of `get_menu_items` are proved equal to a single dedup pass
(`flattenDishes`) over the list of entries the traversal visits
(`visitedEntries`). -/

/-- The dish the flattener builds from one entry. -/
def flatDish (e : Entry) : Dish := ⟨e.name, entryInfo e, "none".toList⟩

/-- The entries of one section that the traversal visits. -/
def sectionEntries (s : MenuSection) : List Entry :=
  if excludedSection s then [] else if is_positive s.count then s.entries else []

/-- The entries of one menu that the traversal visits. -/
def subMenuEntries (m : SubMenu) : List Entry :=
  if is_positive m.count then ((m.sections.map sectionEntries).flatten) else []

/-- All entries of the response that the traversal visits, in order. -/
def visitedEntries (r : MenuResponse) : List Entry :=
  if is_positive r.count then ((r.menus.map subMenuEntries).flatten) else []

/-- Every entry of the response, with no skipping at all (raw occurrence). -/
def allEntries (r : MenuResponse) : List Entry :=
  ((r.menus.map (fun m => ((m.sections.map MenuSection.entries).flatten))).flatten)

/-- The seen-name set after a run of `flattenStep`s. -/
def seenAfter : List Entry → List Str → List Str
  | [], seen => seen
  | e :: rest, seen =>
    if e.name ∈ seen then seenAfter rest seen
    else seenAfter rest (e.name :: seen)

/-- First-occurrence dedup over a list of entries. -/
def flattenDishes : List Entry → List Str → List Dish
  | [], _ => []
  | e :: rest, seen =>
    if e.name ∈ seen then flattenDishes rest seen
    else flatDish e :: flattenDishes rest (e.name :: seen)

theorem foldl_over_flatten {α β : Type} (g : β → Entry → β) (f : α → List Entry)
    (ls : List α) (b : β) :
    ls.foldl (fun st a => (f a).foldl g st) b = ((ls.map f).flatten).foldl g b := by
  induction ls generalizing b with
  | nil => rfl
  | cons a rest ih => simp [List.foldl_append, ih]

theorem foldl_flattenStep (es : List Entry) (r : Str) (ds : List Dish) (seen : List Str) :
    es.foldl flattenStep (⟨r, ds⟩, seen)
      = (⟨r, ds ++ flattenDishes es seen⟩, seenAfter es seen) := by
  induction es generalizing ds seen with
  | nil => simp [flattenDishes, seenAfter]
  | cons e rest ih =>
    by_cases h : e.name ∈ seen
    · simp [flattenStep, h, flattenDishes, seenAfter, ih]
    · simp [flattenStep, h, flattenDishes, seenAfter, ih, add_dish, flatDish]

theorem section_fold_eq (st : MenuChecker.Menu × List Str) (sec : MenuSection) :
    (if excludedSection sec then st
     else if is_positive sec.count then sec.entries.foldl flattenStep st else st)
      = (sectionEntries sec).foldl flattenStep st := by
  unfold sectionEntries
  by_cases h1 : excludedSection sec
  · simp [h1]
  · by_cases h2 : is_positive sec.count <;> simp [h1, h2]

theorem subMenu_fold_eq (st : MenuChecker.Menu × List Str) (menu : SubMenu) :
    (if is_positive menu.count then
        menu.sections.foldl (fun st sec =>
          if excludedSection sec then st
          else if is_positive sec.count then sec.entries.foldl flattenStep st else st) st
      else st)
      = (subMenuEntries menu).foldl flattenStep st := by
  unfold subMenuEntries
  by_cases h : is_positive menu.count
  · simp only [h, if_true]
    have hfun : (fun (st : MenuChecker.Menu × List Str) (sec : MenuSection) =>
        if excludedSection sec then st
        else if is_positive sec.count then sec.entries.foldl flattenStep st else st)
        = fun st sec => (sectionEntries sec).foldl flattenStep st := by
      funext st sec
      exact section_fold_eq st sec
    rw [hfun, foldl_over_flatten]
  · simp [h]

/-- `get_menu_items` equals the dedup pass over the visited entries. -/
theorem get_menu_items_eq (restaurant : Restaurant) (resp : MenuResponse) :
    get_menu_items restaurant resp
      = ⟨restaurant.name, flattenDishes (visitedEntries resp) []⟩ := by
  unfold get_menu_items visitedEntries
  by_cases h : is_positive resp.count
  · simp only [h, if_true]
    have hfun : (fun (st : MenuChecker.Menu × List Str) (menu : SubMenu) =>
        if is_positive menu.count then
          menu.sections.foldl (fun st sec =>
            if excludedSection sec then st
            else if is_positive sec.count then sec.entries.foldl flattenStep st else st) st
        else st)
        = fun st menu => (subMenuEntries menu).foldl flattenStep st := by
      funext st menu
      exact subMenu_fold_eq st menu
    rw [hfun, foldl_over_flatten, foldl_flattenStep]
    simp
  · simp [h, flattenDishes]

theorem flattenDishes_filter_of_mem (es : List Entry) (seen : List Str) (nm : Str)
    (h : nm ∈ seen) :
    (flattenDishes es seen).filter (fun d => d.name == nm) = [] := by
  induction es generalizing seen with
  | nil => rfl
  | cons e rest ih =>
    by_cases hc : e.name ∈ seen
    · rw [flattenDishes, if_pos hc]
      exact ih seen h
    · have hne : ((flatDish e).name == nm) = false := by
        simp only [flatDish]
        by_contra hx
        exact hc ((eq_of_beq (Bool.of_not_eq_false hx)) ▸ h)
      rw [flattenDishes, if_neg hc, List.filter_cons]
      simp only [hne, Bool.false_eq_true, if_false]
      exact ih (e.name :: seen) (List.mem_cons_of_mem _ h)

theorem flattenDishes_filter_of_not_mem (es : List Entry) (seen : List Str) (nm : Str)
    (h : nm ∉ seen) :
    (flattenDishes es seen).filter (fun d => d.name == nm)
      = ((es.find? (fun e => e.name == nm)).map flatDish).toList := by
  induction es generalizing seen with
  | nil => rfl
  | cons e rest ih =>
    by_cases he : e.name = nm
    · subst he
      have hc : e.name ∉ seen := h
      have hself : (e.name == e.name) = true := by simp
      have hkeep : ((flatDish e).name == e.name) = true := by simp [flatDish]
      rw [flattenDishes, if_neg hc, List.find?_cons, List.filter_cons]
      simp only [hself, hkeep, if_true, Option.map_some, Option.toList_some]
      rw [flattenDishes_filter_of_mem rest (e.name :: seen) e.name (List.mem_cons_self _ _)]
      rfl
    · have hne : ((flatDish e).name == nm) = false := by simp [flatDish, he]
      have hfind : (e.name == nm) = false := by simp [he]
      by_cases hc : e.name ∈ seen
      · rw [flattenDishes, if_pos hc, List.find?_cons]
        simp only [hfind]
        exact ih seen h
      · rw [flattenDishes, if_neg hc, List.find?_cons, List.filter_cons]
        simp only [hfind, hne, Bool.false_eq_true, if_false]
        exact ih (e.name :: seen) (by
          intro hmem
          rcases List.mem_cons.mp hmem with h1 | h2
          · exact he h1.symm
          · exact h h2)

/-- The response with every Drinks/Beverages section removed. -/
def removeBeverages (r : MenuResponse) : MenuResponse :=
  ⟨r.count, r.menus.map (fun m => ⟨m.count, m.sections.filter (fun s => !excludedSection s)⟩)⟩

theorem flatten_filter_sections (sections : List MenuSection) :
    (((sections.filter (fun s => !excludedSection s)).map sectionEntries).flatten)
      = ((sections.map sectionEntries).flatten) := by
  induction sections with
  | nil => rfl
  | cons s rest ih =>
    by_cases h : excludedSection s
    · simp [List.filter_cons, h, ih, sectionEntries]
    · simp [List.filter_cons, h, ih]

theorem visited_removeBeverages (r : MenuResponse) :
    visitedEntries (removeBeverages r) = visitedEntries r := by
  unfold visitedEntries removeBeverages
  by_cases h : is_positive r.count
  · simp only [h, if_true, List.map_map]
    congr 1
    apply List.map_congr_left
    intro m _
    unfold subMenuEntries
    by_cases hm : is_positive m.count
    · simpa [hm] using flatten_filter_sections m.sections
    · simp [hm]
  · simp [h]

/-! ### Specification view of the classifier -/

theorem filter_fold_aux (safe_words danger_words : List Str) (l : List Dish)
    (r : Str) (acc : List Dish) :
    l.foldl (fun filtered_menu dish =>
      if safe_words.any (fun word => hasSub word (normalize dish.name))
          || safe_words.any (fun word => hasSub word (normalize dish.info)) then
        add_dish filtered_menu
          ⟨dish.name, format_dish (normalize dish.info), "has safe word".toList⟩
      else if danger_words.any (fun word =>
          hasSub word (normalize dish.name) || hasSub word (normalize dish.info)) then
        filtered_menu
      else
        add_dish filtered_menu
          ⟨dish.name, format_dish (normalize dish.info), "has no danger words".toList⟩)
      ⟨r, acc⟩
      = ⟨r, acc ++ l.filterMap (classify_dish safe_words danger_words)⟩ := by
  induction l generalizing acc with
  | nil => simp
  | cons dish rest ih =>
    simp only [List.foldl_cons, List.filterMap_cons]
    by_cases h1 : (safe_words.any (fun word => hasSub word (normalize dish.name))
        || safe_words.any (fun word => hasSub word (normalize dish.info))) = true
    · have hcl : classify_dish safe_words danger_words dish
          = some ⟨dish.name, format_dish (normalize dish.info), "has safe word".toList⟩ := by
        unfold classify_dish
        rw [if_pos h1]
      rw [if_pos h1, hcl]
      show List.foldl _ (⟨r, acc ++ [_]⟩ : Menu) rest = _
      rw [ih]
      simp
    · by_cases h2 : (danger_words.any (fun word =>
          hasSub word (normalize dish.name) || hasSub word (normalize dish.info))) = true
      · have hcl : classify_dish safe_words danger_words dish = none := by
          unfold classify_dish
          rw [if_neg h1, if_pos h2]
        rw [if_neg h1, if_pos h2, hcl]
        exact ih acc
      · have hcl : classify_dish safe_words danger_words dish
            = some ⟨dish.name, format_dish (normalize dish.info),
                "has no danger words".toList⟩ := by
          unfold classify_dish
          rw [if_neg h1, if_neg h2]
        rw [if_neg h1, if_neg h2, hcl]
        show List.foldl _ (⟨r, acc ++ [_]⟩ : Menu) rest = _
        rw [ih]
        simp

/-- `filter_menu_items` keeps the restaurant tag and maps each dish through
`classify_dish`, independently and in order. -/
theorem filter_menu_items_eq (m : Menu) (safe_words danger_words : List Str) :
    filter_menu_items m safe_words danger_words
      = ⟨m.restaurant, m.dishes.filterMap (classify_dish safe_words danger_words)⟩ := by
  unfold filter_menu_items
  simpa using filter_fold_aux safe_words danger_words m.dishes m.restaurant []

theorem classify_dish_name (safe_words danger_words : List Str) (dish dish' : Dish)
    (h : classify_dish safe_words danger_words dish = some dish') :
    dish'.name = dish.name := by
  unfold classify_dish at h
  split at h
  · cases h; rfl
  · split at h
    · cases h
    · cases h; rfl

theorem filterMap_name_sublist (f : Dish → Option Dish)
    (hf : ∀ a b, f a = some b → b.name = a.name) (l : List Dish) :
    ((l.filterMap f).map Dish.name).Sublist (l.map Dish.name) := by
  induction l with
  | nil => simp
  | cons a rest ih =>
    cases hfa : f a with
    | none =>
      simp only [List.filterMap_cons, hfa, List.map_cons]
      exact ih.cons _
    | some b =>
      simp only [List.filterMap_cons, hfa, List.map_cons, hf a b hfa]
      exact ih.cons₂ _

/-! ### Claims -/

/-- Claim C1: the spec requires `format_dish` to be idempotent, but the code is
not: on `"a ."`, collapsing whitespace gives `"a ."`, replacing the period
gives `"a ;"`, and `rstrip(';')` leaves the trailing space, yielding `"a "`;
a second application then yields `"a"`. -/
theorem c1_format_dish_not_idempotent :
    format_dish (format_dish ("a .".toList)) ≠ format_dish ("a .".toList) := by decide

/-- Claim C2: safe-word precedence. For every menu and word lists, a dish whose
normalized name or normalized description contains some safe word is kept by
`filter_menu_items` with note `"has safe word"`, whatever the danger list. -/
theorem c2_safe_word_precedence (m : Menu) (safe_words danger_words : List Str) (dish : Dish)
    (hmem : dish ∈ m.dishes)
    (hsafe : (safe_words.any (fun word => hasSub word (normalize dish.name))
        || safe_words.any (fun word => hasSub word (normalize dish.info))) = true) :
    ∃ d' ∈ (filter_menu_items m safe_words danger_words).dishes,
      d'.name = dish.name ∧ d'.note = "has safe word".toList := by
  refine ⟨⟨dish.name, format_dish (normalize dish.info), "has safe word".toList⟩, ?_, rfl, rfl⟩
  rw [filter_menu_items_eq]
  show _ ∈ List.filterMap (classify_dish safe_words danger_words) m.dishes
  refine List.mem_filterMap.mpr ⟨dish, hmem, ?_⟩
  unfold classify_dish
  rw [if_pos hsafe]

/-- Witness for C2: a dish named `"Vegan Bowl"` whose description contains the
danger word `"beef"` is still kept with note `"has safe word"`. -/
theorem c2_safe_word_precedence_witness :
    ((⟨"Vegan Bowl".toList, "tasty beef".toList, "none".toList⟩ : Dish)
        ∈ (⟨"R".toList, [⟨"Vegan Bowl".toList, "tasty beef".toList, "none".toList⟩]⟩
            : Menu).dishes)
      ∧ ((["vegan".toList].any (fun word =>
            hasSub word (normalize ("Vegan Bowl".toList)))
          || ["vegan".toList].any (fun word =>
            hasSub word (normalize ("tasty beef".toList)))) = true)
      ∧ ∃ d' ∈ (filter_menu_items
            ⟨"R".toList, [⟨"Vegan Bowl".toList, "tasty beef".toList, "none".toList⟩]⟩
            ["vegan".toList] ["beef".toList]).dishes,
          d'.name = "Vegan Bowl".toList ∧ d'.note = "has safe word".toList :=
  ⟨by decide, by decide,
    c2_safe_word_precedence
      ⟨"R".toList, [⟨"Vegan Bowl".toList, "tasty beef".toList, "none".toList⟩]⟩
      ["vegan".toList] ["beef".toList]
      ⟨"Vegan Bowl".toList, "tasty beef".toList, "none".toList⟩
      (by decide) (by decide)⟩

/-- Claim C3: danger-word filtering. `filter_menu_items` classifies each dish
independently via `classify_dish`; a dish with no safe-word hit is dropped iff
some danger word is a substring of its normalized name or description, and is
otherwise kept with note `"has no danger words"` and its normalized description
passed through `format_dish`. -/
theorem c3_danger_word_filtering (m : Menu) (safe_words danger_words : List Str) (dish : Dish)
    (hsafe : (safe_words.any (fun word => hasSub word (normalize dish.name))
        || safe_words.any (fun word => hasSub word (normalize dish.info))) = false) :
    (filter_menu_items m safe_words danger_words).dishes
        = m.dishes.filterMap (classify_dish safe_words danger_words)
      ∧ (classify_dish safe_words danger_words dish = none
          ↔ (danger_words.any (fun word =>
              hasSub word (normalize dish.name) || hasSub word (normalize dish.info))) = true)
      ∧ ((danger_words.any (fun word =>
              hasSub word (normalize dish.name) || hasSub word (normalize dish.info))) = false
          → classify_dish safe_words danger_words dish
              = some ⟨dish.name, format_dish (normalize dish.info),
                  "has no danger words".toList⟩) := by
  have hnot : ¬(safe_words.any (fun word => hasSub word (normalize dish.name))
      || safe_words.any (fun word => hasSub word (normalize dish.info))) = true := by
    simp [hsafe]
  refine ⟨by rw [filter_menu_items_eq], ?_, ?_⟩
  · by_cases hd : (danger_words.any (fun word =>
        hasSub word (normalize dish.name) || hasSub word (normalize dish.info))) = true
    · refine ⟨fun _ => hd, fun _ => ?_⟩
      unfold classify_dish
      rw [if_neg hnot, if_pos hd]
    · have : classify_dish safe_words danger_words dish
          = some ⟨dish.name, format_dish (normalize dish.info),
              "has no danger words".toList⟩ := by
        unfold classify_dish
        rw [if_neg hnot, if_neg hd]
      simp [this, hd]
  · intro hdf
    unfold classify_dish
    rw [if_neg hnot, if_neg (by simp [hdf])]

/-- Witness for C3: with no safe word in `"Steak: grilled beef."`, the dish is
dropped exactly because `"beef"` matches. -/
theorem c3_danger_word_filtering_witness :
    ((["vegan".toList].any (fun word =>
          hasSub word (normalize ("Steak".toList)))
        || ["vegan".toList].any (fun word =>
          hasSub word (normalize ("grilled beef.".toList)))) = false)
      ∧ ((filter_menu_items ⟨"R".toList,
            [⟨"Steak".toList, "grilled beef.".toList, "none".toList⟩]⟩
            ["vegan".toList] ["beef".toList]).dishes
          = (⟨"R".toList, [⟨"Steak".toList, "grilled beef.".toList, "none".toList⟩]⟩
              : Menu).dishes.filterMap (classify_dish ["vegan".toList] ["beef".toList])
        ∧ (classify_dish ["vegan".toList] ["beef".toList]
              ⟨"Steak".toList, "grilled beef.".toList, "none".toList⟩ = none
            ↔ (["beef".toList].any (fun word =>
                hasSub word (normalize ("Steak".toList))
                  || hasSub word (normalize ("grilled beef.".toList)))) = true)
        ∧ ((["beef".toList].any (fun word =>
                hasSub word (normalize ("Steak".toList))
                  || hasSub word (normalize ("grilled beef.".toList)))) = false
            → classify_dish ["vegan".toList] ["beef".toList]
                ⟨"Steak".toList, "grilled beef.".toList, "none".toList⟩
                = some ⟨"Steak".toList, format_dish (normalize ("grilled beef.".toList)),
                    "has no danger words".toList⟩)) :=
  ⟨by decide,
    c3_danger_word_filtering
      ⟨"R".toList, [⟨"Steak".toList, "grilled beef.".toList, "none".toList⟩]⟩
      ["vegan".toList] ["beef".toList]
      ⟨"Steak".toList, "grilled beef.".toList, "none".toList⟩
      (by decide)⟩

/-- Claim C5: beverage exclusion. Removing every section whose name contains
`"Drinks"` or `"Beverages"` from the response does not change the flattened
menu at all: such sections never contribute dishes, whatever their entries. -/
theorem c5_beverage_exclusion (restaurant : Restaurant) (resp : MenuResponse) :
    get_menu_items restaurant resp = get_menu_items restaurant (removeBeverages resp) := by
  rw [get_menu_items_eq, get_menu_items_eq, visited_removeBeverages]

/-- Claim C6: filter output invariant. The names of the dishes kept by
`filter_menu_items` form a sublist of the input's dish names (so every kept
dish's name occurs in the input and relative order is preserved), and the kept
dish count is at most the input's. -/
theorem c6_filter_output_invariant (m : Menu) (safe_words danger_words : List Str) :
    ((filter_menu_items m safe_words danger_words).dishes.map Dish.name).Sublist
        (m.dishes.map Dish.name)
      ∧ (filter_menu_items m safe_words danger_words).dishes.length ≤ m.dishes.length := by
  have hsub : ((filter_menu_items m safe_words danger_words).dishes.map Dish.name).Sublist
      (m.dishes.map Dish.name) := by
    rw [filter_menu_items_eq]
    exact filterMap_name_sublist _ (classify_dish_name safe_words danger_words) m.dishes
  refine ⟨hsub, ?_⟩
  have := hsub.length_le
  simpa using this

/-- Counterexample to C4 as stated: the name `"Cola"` occurs in two entries of
the response (both inside a `"Drinks"` section), yet the flattened menu
contains no dish with that name at all — not exactly one. -/
theorem c4_dedup_counterexample :
    (allEntries ⟨1, [⟨1, [⟨"Drinks".toList, 2,
          [⟨"Cola".toList, some ("sweet".toList)⟩,
            ⟨"Cola".toList, some ("diet".toList)⟩]⟩]⟩]⟩).countP
        (fun e => e.name == "Cola".toList) = 2
      ∧ (get_menu_items ⟨"id1".toList, "Bar".toList, "addr".toList⟩
          ⟨1, [⟨1, [⟨"Drinks".toList, 2,
            [⟨"Cola".toList, some ("sweet".toList)⟩,
              ⟨"Cola".toList, some ("diet".toList)⟩]⟩]⟩]⟩).dishes.filter
          (fun d => d.name == "Cola".toList) = [] := by decide

/-- Claim C4 (amended): among the entries the flattener actually traverses
(positive counts, non-beverage sections), a raw dish name occurring at least
twice yields exactly one dish in the flattened menu, namely the first traversed
occurrence with its processed description. -/
theorem c4_dedup_first_occurrence (restaurant : Restaurant) (resp : MenuResponse) (nm : Str)
    (h : 2 ≤ (visitedEntries resp).countP (fun e => e.name == nm)) :
    ∃ e, (visitedEntries resp).find? (fun e => e.name == nm) = some e
      ∧ e.name = nm
      ∧ ((get_menu_items restaurant resp).dishes.filter (fun d => d.name == nm))
          = [⟨nm, entryInfo e, "none".toList⟩] := by
  have hex : ∃ x, x ∈ visitedEntries resp ∧ (fun e => e.name == nm) x = true := by
    have : 0 < (visitedEntries resp).countP (fun e => e.name == nm) :=
      lt_of_lt_of_le (by norm_num) h
    simpa using List.countP_pos_iff.mp this
  obtain ⟨e, he⟩ := Option.isSome_iff_exists.mp (List.find?_isSome.mpr hex)
  have hname : e.name = nm := by simpa using List.find?_some he
  refine ⟨e, he, hname, ?_⟩
  rw [get_menu_items_eq]
  show (flattenDishes (visitedEntries resp) []).filter (fun d => d.name == nm) = _
  rw [flattenDishes_filter_of_not_mem _ _ _ (List.not_mem_nil nm), he]
  simp [flatDish, hname]

/-- Witness for C4 (amended): `"Veggie"` occurs in two different food sections;
the flattened menu keeps exactly the first occurrence's description. -/
theorem c4_dedup_first_occurrence_witness :
    (2 ≤ (visitedEntries ⟨1, [⟨1,
          [⟨"Mains".toList, 1, [⟨"Veggie".toList, some ("First.".toList)⟩]⟩,
            ⟨"Sides".toList, 1, [⟨"Veggie".toList, some ("Second.".toList)⟩]⟩]⟩]⟩).countP
        (fun e => e.name == "Veggie".toList))
      ∧ ∃ e, (visitedEntries ⟨1, [⟨1,
            [⟨"Mains".toList, 1, [⟨"Veggie".toList, some ("First.".toList)⟩]⟩,
              ⟨"Sides".toList, 1, [⟨"Veggie".toList, some ("Second.".toList)⟩]⟩]⟩]⟩).find?
            (fun e => e.name == "Veggie".toList) = some e
          ∧ e.name = "Veggie".toList
          ∧ ((get_menu_items ⟨"id1".toList, "Cafe".toList, "addr".toList⟩
              ⟨1, [⟨1,
                [⟨"Mains".toList, 1, [⟨"Veggie".toList, some ("First.".toList)⟩]⟩,
                  ⟨"Sides".toList, 1, [⟨"Veggie".toList,
                    some ("Second.".toList)⟩]⟩]⟩]⟩).dishes.filter
              (fun d => d.name == "Veggie".toList))
              = [⟨"Veggie".toList, entryInfo e, "none".toList⟩] :=
  ⟨by decide,
    c4_dedup_first_occurrence ⟨"id1".toList, "Cafe".toList, "addr".toList⟩
      ⟨1, [⟨1,
        [⟨"Mains".toList, 1, [⟨"Veggie".toList, some ("First.".toList)⟩]⟩,
          ⟨"Sides".toList, 1, [⟨"Veggie".toList, some ("Second.".toList)⟩]⟩]⟩]⟩
      ("Veggie".toList) (by decide)⟩

/-- The bulleted rendering shape exactly as the claim words it: a
`*restaurant*` header line followed by one `- name: description` line per
dish. -/
def bulletedSpec (m : Menu) : Str :=
  ['*'] ++ m.restaurant ++ ['*', '\n']
    ++ ((m.dishes.map (fun d =>
        ("- ".toList) ++ d.name ++ (": ".toList) ++ d.info ++ ['\n'])).flatten)

/-- The bulleted rendering shape as amended: a dish with an empty description
renders as `- name`, with no colon. -/
def bulletedAmended (m : Menu) : Str :=
  ['*'] ++ m.restaurant ++ ['*', '\n']
    ++ ((m.dishes.map (fun d =>
        if d.info = [] then ("- ".toList) ++ d.name ++ ['\n']
        else ("- ".toList) ++ d.name ++ (": ".toList) ++ d.info ++ ['\n'])).flatten)

/-- Counterexample to C7 as stated: a dish with an empty description renders as
`- Bread`, not `- Bread: `. -/
theorem c7_rendering_counterexample :
    menuStr ⟨"R".toList, [⟨"Bread".toList, [], "none".toList⟩]⟩
      ≠ bulletedSpec ⟨"R".toList, [⟨"Bread".toList, [], "none".toList⟩]⟩ := by decide

theorem menu_foldl_lines (l : List Dish) (init : Str) :
    l.foldl (fun result dish => result ++ ("- ".toList) ++ dishStr dish ++ ['\n']) init
      = init ++ ((l.map (fun d => ("- ".toList) ++ dishStr d ++ ['\n'])).flatten) := by
  induction l generalizing init with
  | nil => simp
  | cons d rest ih =>
    rw [List.foldl_cons, ih]
    simp [List.append_assoc]

/-- Claim C7 (amended): `str(Menu)` is the `*restaurant*` header line followed
by one line per dish in menu order, `- name: description`, or `- name` when the
description is empty. -/
theorem c7_bulleted_rendering (m : Menu) : menuStr m = bulletedAmended m := by
  unfold menuStr bulletedAmended
  rw [menu_foldl_lines]
  congr 1
  apply congrArg
  apply List.map_congr_left
  intro d _
  unfold dishStr
  by_cases h : d.info = []
  · rw [if_neg (by simp [h]), if_pos h]
  · rw [if_pos h, if_neg h]
    simp [List.append_assoc]

/-- Claim C8: size fallback. When the pipeline reaches the rendering stage
(search succeeded with a first restaurant, menu fetch succeeded, flattened menu
nonempty), `check_menu` returns the simplified one-line rendering exactly when
the bulleted rendering of the filtered menu exceeds 1600 characters, and the
bulleted rendering itself otherwise. -/
theorem c8_size_fallback (first : Restaurant) (others : List Restaurant)
    (resp : MenuResponse) (danger_lines : List Str)
    (hne : (get_menu_items first resp).dishes.length ≠ 0) :
    (1600 < (menuStr (filter_menu_items (get_menu_items first resp)
          ["vegan".toList, "vegetarian".toList] (danger_lines.map stripWs))).length
        → check_menu (.ok (first :: others)) (.ok resp) danger_lines
            = simplified_menu (filter_menu_items (get_menu_items first resp)
                ["vegan".toList, "vegetarian".toList] (danger_lines.map stripWs)))
      ∧ (¬ 1600 < (menuStr (filter_menu_items (get_menu_items first resp)
          ["vegan".toList, "vegetarian".toList] (danger_lines.map stripWs))).length
        → check_menu (.ok (first :: others)) (.ok resp) danger_lines
            = menuStr (filter_menu_items (get_menu_items first resp)
                ["vegan".toList, "vegetarian".toList] (danger_lines.map stripWs))) := by
  constructor <;> intro h
  · show (if (get_menu_items first resp).dishes.length = 0 then _
      else if is_too_large _ = true then _ else _) = _
    rw [if_neg hne, if_pos (show is_too_large _ = true from decide_eq_true h)]
  · show (if (get_menu_items first resp).dishes.length = 0 then _
      else if is_too_large _ = true then _ else _) = _
    rw [if_neg hne, if_neg (show ¬is_too_large _ = true by
      simpa [is_too_large, TWILIO_MAXIMUM_MESSAGE_SIZE] using h)]

/-- Witness for C8: a one-dish menu; its bulleted rendering is short, so the
bulleted form is returned. -/
theorem c8_size_fallback_witness :
    ((get_menu_items ⟨"id".toList, "R".toList, "A".toList⟩
        ⟨1, [⟨1, [⟨"Food".toList, 1,
          [⟨"Tofu".toList, some ("nice".toList)⟩]⟩]⟩]⟩).dishes.length ≠ 0)
      ∧ ((1600 < (menuStr (filter_menu_items
            (get_menu_items ⟨"id".toList, "R".toList, "A".toList⟩
              ⟨1, [⟨1, [⟨"Food".toList, 1, [⟨"Tofu".toList, some ("nice".toList)⟩]⟩]⟩]⟩)
            ["vegan".toList, "vegetarian".toList] ([].map stripWs))).length
          → check_menu (.ok (⟨"id".toList, "R".toList, "A".toList⟩ :: []))
              (.ok ⟨1, [⟨1, [⟨"Food".toList, 1,
                [⟨"Tofu".toList, some ("nice".toList)⟩]⟩]⟩]⟩) []
              = simplified_menu (filter_menu_items
                  (get_menu_items ⟨"id".toList, "R".toList, "A".toList⟩
                    ⟨1, [⟨1, [⟨"Food".toList, 1,
                      [⟨"Tofu".toList, some ("nice".toList)⟩]⟩]⟩]⟩)
                  ["vegan".toList, "vegetarian".toList] ([].map stripWs)))
        ∧ (¬ 1600 < (menuStr (filter_menu_items
            (get_menu_items ⟨"id".toList, "R".toList, "A".toList⟩
              ⟨1, [⟨1, [⟨"Food".toList, 1, [⟨"Tofu".toList, some ("nice".toList)⟩]⟩]⟩]⟩)
            ["vegan".toList, "vegetarian".toList] ([].map stripWs))).length
          → check_menu (.ok (⟨"id".toList, "R".toList, "A".toList⟩ :: []))
              (.ok ⟨1, [⟨1, [⟨"Food".toList, 1,
                [⟨"Tofu".toList, some ("nice".toList)⟩]⟩]⟩]⟩) []
              = menuStr (filter_menu_items
                  (get_menu_items ⟨"id".toList, "R".toList, "A".toList⟩
                    ⟨1, [⟨1, [⟨"Food".toList, 1,
                      [⟨"Tofu".toList, some ("nice".toList)⟩]⟩]⟩]⟩)
                  ["vegan".toList, "vegetarian".toList] ([].map stripWs)))) :=
  ⟨by decide,
    c8_size_fallback ⟨"id".toList, "R".toList, "A".toList⟩ []
      ⟨1, [⟨1, [⟨"Food".toList, 1, [⟨"Tofu".toList, some ("nice".toList)⟩]⟩]⟩]⟩ []
      (by decide)⟩

/-- Claim C9: zero-results message. Whatever the (never-consulted) menu-fetch
outcome and danger list, a successful search returning no restaurants makes
`check_menu` return exactly the fixed no-results string. -/
theorem c9_zero_results (fetch_result : Except Unit MenuResponse) (danger_lines : List Str) :
    check_menu (.ok []) fetch_result danger_lines
      = ("No Results Found: We could not find any restaurants with the text you sent. Please try again.".toList) :=
  rfl

theorem hasSub_nil (haystack : Str) : hasSub [] haystack = true := by
  cases haystack <;> rfl

theorem filterMap_classify_empty_danger (safe danger : List Str)
    (hd : ([] : Str) ∈ danger) (l : List Dish) :
    l.filterMap (classify_dish safe danger)
      = (l.filter (fun dish => safe.any (fun word => hasSub word (normalize dish.name))
          || safe.any (fun word => hasSub word (normalize dish.info)))).map
        (fun dish =>
          ⟨dish.name, format_dish (normalize dish.info), "has safe word".toList⟩) := by
  induction l with
  | nil => rfl
  | cons dish rest ih =>
    rw [List.filterMap_cons, List.filter_cons]
    by_cases h1 : (safe.any (fun word => hasSub word (normalize dish.name))
        || safe.any (fun word => hasSub word (normalize dish.info))) = true
    · have hcl : classify_dish safe danger dish
          = some ⟨dish.name, format_dish (normalize dish.info), "has safe word".toList⟩ := by
        unfold classify_dish
        rw [if_pos h1]
      rw [hcl, if_pos h1, List.map_cons, ih]
    · have hdng : (danger.any (fun word =>
          hasSub word (normalize dish.name) || hasSub word (normalize dish.info))) = true := by
        refine List.any_eq_true.mpr ⟨[], hd, ?_⟩
        rw [hasSub_nil]
        rfl
      have hcl : classify_dish safe danger dish = none := by
        unfold classify_dish
        rw [if_neg h1, if_pos hdng]
      rw [hcl, if_neg h1, ih]

/-- Claim C10: if the danger list contains the empty string (as a blank line of
the external word file does after `strip`), every dish without a safe-word hit
is dropped — the output is exactly the safe-word dishes. -/
theorem c10_empty_danger_word (m : Menu) (safe_words danger_words : List Str)
    (hd : ([] : Str) ∈ danger_words) :
    (filter_menu_items m safe_words danger_words).dishes
      = (m.dishes.filter (fun dish =>
          safe_words.any (fun word => hasSub word (normalize dish.name))
            || safe_words.any (fun word => hasSub word (normalize dish.info)))).map
        (fun dish =>
          ⟨dish.name, format_dish (normalize dish.info), "has safe word".toList⟩) := by
  rw [filter_menu_items_eq]
  exact filterMap_classify_empty_danger safe_words danger_words hd m.dishes

/-- Witness for C10: the danger list is loaded from a single blank line, which
strips to the empty string; the dish without a safe word is dropped, the one
with `"vegan"` in its name is kept. -/
theorem c10_empty_danger_word_witness :
    (([] : Str) ∈ (["\n".toList].map stripWs))
      ∧ (filter_menu_items
          ⟨"R".toList, [⟨"Vegan Pie".toList, "sweet".toList, "none".toList⟩,
            ⟨"Steak".toList, "beef".toList, "none".toList⟩]⟩
          ["vegan".toList] (["\n".toList].map stripWs)).dishes
        = ((⟨"R".toList, [⟨"Vegan Pie".toList, "sweet".toList, "none".toList⟩,
              ⟨"Steak".toList, "beef".toList, "none".toList⟩]⟩ : Menu).dishes.filter
            (fun dish => ["vegan".toList].any (fun word => hasSub word (normalize dish.name))
              || ["vegan".toList].any (fun word => hasSub word (normalize dish.info)))).map
          (fun dish =>
            ⟨dish.name, format_dish (normalize dish.info), "has safe word".toList⟩) :=
  ⟨by decide,
    c10_empty_danger_word
      ⟨"R".toList, [⟨"Vegan Pie".toList, "sweet".toList, "none".toList⟩,
        ⟨"Steak".toList, "beef".toList, "none".toList⟩]⟩
      ["vegan".toList] (["\n".toList].map stripWs) (by decide)⟩

end MenuChecker
